import Mathlib

/-!
Verification of core behaviours of the snmpsim SNMP agent simulator
(`snmpsim/commands/responder.py`).

The development shallowly embeds the parts of the responder that the
checked properties concern:

* the GETBULK expansion helper `getBulkHandler`;
* the process-wide cache of open data-file handles (`DataFile.getHandles`);
* the record lookup engine (`DataFile.processVarBinds`) together with the
  snmprec value evaluator (`SnmprecRecordMixIn.evaluateValue`);
* the v2c-to-v1 response translation in `commandResponderCbFun`;
* context-name registration in `configureManagedObjects`;
* the context-name candidate generator `probeContext`.

Byte offsets into the record text file are modelled as indices into the
list of parsed records: seeking to a record's offset and reading a line
corresponds to indexing, and the file position after a read is the next
index.  Components of the system that live outside the responder module
(the record index side file, the text-search helper and the snmprec value
decoder) are modelled from the specification; each such definition says so
in its documentation string.
-/

/-- An OID: an ordered sequence of unsigned integers. -/
abbrev Oid := List Nat

/-- Lexicographic strict order on OIDs (a proper prefix precedes its
extensions), the total order used by record files and the search helper. -/
def oidLt : Oid → Oid → Bool
  | [], [] => false
  | [], _ :: _ => true
  | _ :: _, [] => false
  | a :: as, b :: bs => if a < b then true else if b < a then false else oidLt as bs

/-- SNMP values as they flow through the responder.  `pyStr` is a plain
Python string (the undecoded value field of a record), which is the one
shape without a pyasn1 `tagSet` attribute; the remaining constructors are
pyasn1 objects.  `typed tag raw` stands for the value decoded from the
textual `raw` according to the snmprec type code `tag`. -/
inductive Val where
  | pyStr (s : String)
  | typed (tag : String) (raw : String)
  | nullV
  | noSuchInstance
  | noSuchObject
  | endOfMib
  deriving DecidableEq, Repr

/-- Python's `hasattr(value, 'tagSet')` test used by `evaluateValue`:
true for every pyasn1 object, false for a plain string. -/
def Val.hasTagSet : Val → Bool
  | .pyStr _ => false
  | _ => true

/-- A parsed record line `OID|TAG|VALUE`. -/
structure RecordLine where
  oid : Oid
  tag : String
  value : String
  deriving DecidableEq, Repr

/-- A variable binding as handled by the responder. -/
abbrev VarBind := Oid × Val

/-! ## Data file handle cache (`DataFile.getHandles`)

`DataFile` keeps a class-wide list `openedQueue` of data files whose
record index currently holds open file handles, together with the cap
`maxQueueEntries = 31` (the source comments it as the maximum number of
open text and index files).  The cache state below records the queue
(oldest first) and the stores that eviction has closed so far; store
objects are identified by numbers.  For executions that only ever call
`getHandles` — the situation the claim quantifies over — membership in
the queue coincides with `recordIndex.isOpen()`. -/

/-- The cap on the handle queue, `DataFile.maxQueueEntries`. -/
def maxQueueEntries : Nat := 31

/-- State of the process-wide handle cache. -/
structure CacheState where
  openedQueue : List Nat
  closed : List Nat
  deriving DecidableEq, Repr

/-- The empty cache at process start. -/
def CacheState.init : CacheState := ⟨[], []⟩

/-- One `getHandles` call on the data file identified by `x`.  If the
store is already open nothing changes; otherwise, when the queue holds
more than `maxQueueEntries` entries the oldest store is closed and
dropped, and then `x` is appended. -/
def getHandles (s : CacheState) (x : Nat) : CacheState :=
  if x ∈ s.openedQueue then s
  else
    let s' : CacheState :=
      if s.openedQueue.length > maxQueueEntries then
        { openedQueue := s.openedQueue.tail,
          closed := s.closed ++ s.openedQueue.take 1 }
      else s
    { s' with openedQueue := s'.openedQueue ++ [x] }

/-- Open each store of `xs` in turn, starting from the empty cache. -/
def openAll (xs : List Nat) : CacheState :=
  xs.foldl getHandles CacheState.init

/-! ## GETBULK expansion (`getBulkHandler`)

The handler computes `N`, `R` and clamps `M` by `maxVarBinds / R` — in
Python 3 this `/` is true division, so a non-integral quotient turns `M`
into a fractional number.  `M` is modelled as a rational: subtracting `1`
from a Python float of this magnitude is exact, and the loop guard
`while M and R` only asks whether `M` is zero, so the rational model and
the float agree on the number of iterations and on non-termination.

The `while M and R` loop is modelled by its step function together with
`loopCount`, the number of iterations after which the guard first fails
(`none` when the guard holds forever); the lemmas `bulkLoop_M`,
`loopCount_eq_some_iff` and `loopCount_none_no_exit` justify this reading
of the loop. -/

/-- Loop state: the repetition counter, the response accumulated so far
and the varbind list to feed to the next `readNextVars` call. -/
structure BulkState where
  M : ℚ
  rsp : List VarBind
  cur : List VarBind

/-- One iteration of the `while M and R` loop body: extend the response
with `readNextVars(varBinds)`, re-slice the last `R` response entries,
decrement `M`. -/
def bulkStep (readNextVars : List VarBind → List VarBind) (R : Nat)
    (s : BulkState) : BulkState :=
  let rsp := s.rsp ++ readNextVars s.cur
  { M := s.M - 1, rsp := rsp, cur := rsp.drop (rsp.length - R) }

/-- Number of iterations of the `while M and R` loop (with `R ≠ 0`):
the guard tests `M` for zero and each iteration subtracts exactly one,
so the loop exits after `M` iterations when `M` is a non-negative
integer and never exits otherwise. -/
def loopCount (M : ℚ) : Option Nat :=
  if M.den = 1 ∧ 0 ≤ M.num then some M.num.toNat else none

/-- The GETBULK handler of the v2c arch (`getBulkHandler`).  Returns
`none` when the `while` loop never terminates.  `maxVarBinds` is the
`--max-varbinds` cap (default 64). -/
def getBulkHandler (maxVarBinds : Nat)
    (readNextVars : List VarBind → List VarBind)
    (reqVarBinds : List VarBind) (nonRepeaters maxRepetitions : Nat) :
    Option (List VarBind) :=
  let N := min nonRepeaters reqVarBinds.length
  let R := reqVarBinds.length - N
  let M : ℚ :=
    if R ≠ 0 then min (maxRepetitions : ℚ) ((maxVarBinds : ℚ) / (R : ℚ))
    else (maxRepetitions : ℚ)
  let rspVarBinds := if N ≠ 0 then readNextVars (reqVarBinds.take N) else []
  -- Python `reqVarBinds[-R:]` is the whole list when R = 0
  let varBinds :=
    if R = 0 then reqVarBinds else reqVarBinds.drop (reqVarBinds.length - R)
  if R = 0 then some rspVarBinds
  else
    match loopCount M with
    | none => none
    | some k =>
        some ((bulkStep readNextVars R)^[k] ⟨M, rspVarBinds, varBinds⟩).rsp

/-! ## Record grammar: the tag field

A tag either is a plain snmprec type code (possibly with the hex suffix
`x`) or carries a variation-module reference after the first `:`
(`tag[:tag.index(':')]` / `tag[tag.index(':')+1:]` in the source). -/

/-- Split a character list at the first `:`; `none` when there is no
colon. -/
def splitTagAux : List Char → Option (List Char × List Char)
  | [] => none
  | c :: cs =>
      if c = ':' then some ([], cs)
      else
        match splitTagAux cs with
        | none => none
        | some (pre, post) => some (c :: pre, post)

/-- Split a tag into the optional module reference after the first `:`
and the type-code part before it.  With no colon the module part is
`none`; a colon with nothing after it yields the empty module name, which
the source treats as no module (an empty string is falsy in Python). -/
def splitTag (tag : String) : Option String × String :=
  match splitTagAux tag.toList with
  | none => (none, tag)
  | some (pre, post) => (some (String.mk post), String.mk pre)

/-! ## Value evaluation (`SnmprecRecordMixIn.evaluateValue`) -/

/-- Evaluation failures, mirroring the exception kinds the responder
distinguishes. -/
inductive EvalErr where
  | noData
  | mibOp
  | snmpsim (msg : String)
  | pyAsn1 (msg : String)
  | other (msg : String)
  deriving DecidableEq, Repr

/-- The call context handed to `evaluateValue` (the keyword-argument
dictionary built by `processVarBinds`).  The presence of the
`variationModules` key in the dictionary is modelled by the Boolean
`variationModulesPresent`; the table itself is carried by `VariationEnv`
below, since a context containing the module functions themselves would
not be a well-founded datatype. -/
structure CallCtx where
  nextFlag : Bool
  setFlag : Bool
  dataValidation : Bool
  origOid : Oid
  origValue : Val
  dataFile : String
  subtreeFlag : Bool
  exactMatch : Bool
  errorStatus : Val
  varsTotal : Nat
  varsRemaining : Nat
  variationModulesPresent : Bool
  hexvalue : Option String
  hextag : Option String

/-- A variation module's `variate(oid, tag, value, **context)` callable.
Its mutable per-agent and per-record dictionaries are not modelled (no
checked claim depends on them), so a module is a pure function of the
call context. -/
abbrev VarFn := CallCtx → Oid → String → Val → Except EvalErr (Oid × String × Val)

/-- Ambient tables used by evaluation: the loaded variation modules
(alias-keyed) and the grammar helpers.  `subtreeTag` is the index
builder's subtree test on tags; `hexifyValue` and `getTagByType` stand
for the grammar methods of the same names (their internals live outside
the responder module and no checked claim depends on them). -/
structure VariationEnv where
  variationModules : List (String × VarFn)
  subtreeTag : String → Bool
  hexifyValue : Val → Option String
  getTagByType : Val → String

/-- Modelled from the spec: the base `snmprec.SnmprecRecord.evaluateValue`
(the record grammar lives outside the responder module) decodes the
textual value according to the tag into a typed SNMP value.  The decoded
object is represented symbolically as `Val.typed tag raw`; decode
failures are not modelled, as no checked claim depends on them. -/
def snmprecBaseEvaluateValue (oid : Oid) (tag : String) (v : Val) :
    Except EvalErr (Oid × String × Val) :=
  match v with
  | .pyStr s => .ok (oid, tag, .typed tag s)
  | v => .ok (oid, tag, v)

/-- `SnmprecRecordMixIn.evaluateValue`.  A tag naming a loaded module
dispatches to its `variate`; a tag naming an unloaded module raises
`SnmpsimError`; without a module, `set` mode or an inexact non-NEXT match
short-circuits to the original OID and the error status; finally a value
that is not yet a pyasn1 object is decoded by the base class. -/
def evaluateValue (env : VariationEnv) (c : CallCtx) (oid : Oid)
    (tag : String) (value : Val) : Except EvalErr (Oid × String × Val) :=
  let p := splitTag tag
  let modName := p.1.getD ""
  let tag := p.2
  if modName ≠ "" then
    match
      (if c.variationModulesPresent then
        env.variationModules.lookup modName
      else none) with
    | some variate =>
        if c.dataValidation then .ok (oid, tag, .nullV)
        else
          let c :=
            if c.setFlag then
              match env.hexifyValue c.origValue with
              | some hv =>
                  { c with hexvalue := some hv,
                           hextag := some (env.getTagByType c.origValue ++ "x") }
              | none => c
            else c
          match variate c oid tag value with
          | .error e => .error e
          | .ok (oid, tag, value) =>
              if value.hasTagSet then .ok (oid, tag, value)
              else snmprecBaseEvaluateValue oid tag value
    | none =>
        .error (.snmpsim
          ("Variation module " ++ modName ++ " referenced but not loaded"))
  else
    -- In dataValidation mode the base evaluator is additionally invoked
    -- for its checks and its result discarded; the modelled decoder is
    -- total, so that call is a no-op here.
    if (!c.nextFlag && !c.exactMatch) || c.setFlag then
      .ok (c.origOid, tag, c.errorStatus)
    else
      if value.hasTagSet then .ok (oid, tag, value)
      else snmprecBaseEvaluateValue oid tag value

/-- `SnmprecRecordMixIn.evaluate` for a full evaluation (the `oidOnly`
cheap path used during traversal reads the parsed OID directly).
`NoDataNotification` and `MibOperationError` are re-raised unchanged,
`PyAsn1Error` is wrapped into `SnmpsimError`, anything else propagates. -/
def recordEvaluate (env : VariationEnv) (c : CallCtx) (line : RecordLine) :
    Except EvalErr (Oid × Val) :=
  match evaluateValue env c line.oid line.tag (.pyStr line.value) with
  | .ok (oid, _, value) => .ok (oid, value)
  | .error .noData => .error .noData
  | .error .mibOp => .error .mibOp
  | .error (.pyAsn1 m) => .error (.snmpsim m)
  | .error e => .error e

/-! ## Record index (spec-modelled)

The index lives in `snmpsim.record.search.database` (outside the
responder module), so it is modelled from the specification: one entry per
record, keyed by the record's OID, holding `(offset, subtree-flag,
prev-offset)`.  The build walks the file keeping a stack of open subtree
parents; a record's prev-offset is the topmost stack element whose OID is
a prefix of the record's OID (parents that are no longer prefixes are
popped), and subtree-marked records are pushed.  Offsets are record
indices, matching the byte-offset convention stated at the top of this
file. -/

/-- Prev-offsets of all records, positionally.  `i` is the index of the
first record of the remaining list, `stack` the open subtree parents
(most recent first). -/
def prevOffsetsAux (subtreeTag : String → Bool) :
    List RecordLine → Nat → List (Nat × Oid) → List (Option Nat)
  | [], _, _ => []
  | r :: rs, i, stack =>
      let stack := stack.dropWhile (fun p => !(p.2.isPrefixOf r.oid))
      let prev := stack.head?.map Prod.fst
      let stack' := if subtreeTag r.tag then (i, r.oid) :: stack else stack
      prev :: prevOffsetsAux subtreeTag rs (i + 1) stack'

/-- Prev-offset of each record of the file, positionally. -/
def prevOffsets (subtreeTag : String → Bool) (recs : List RecordLine) :
    List (Option Nat) :=
  prevOffsetsAux subtreeTag recs 0 []

/-- The stack of open subtree parents left after scanning the whole
file. -/
def openStackAux (subtreeTag : String → Bool) :
    List RecordLine → Nat → List (Nat × Oid) → List (Nat × Oid)
  | [], _, stack => stack
  | r :: rs, i, stack =>
      let stack := stack.dropWhile (fun p => !(p.2.isPrefixOf r.oid))
      let stack' := if subtreeTag r.tag then (i, r.oid) :: stack else stack
      openStackAux subtreeTag rs (i + 1) stack'

/-- Modelled from the spec: exact-key index lookup for a record OID,
returning `(offset, subtree-flag, prev-offset)`; `none` is the KeyError
signal for an OID with no record. -/
def idxLookup (subtreeTag : String → Bool) (recs : List RecordLine)
    (oid : Oid) : Option (Nat × Bool × Option Nat) :=
  match recs.findIdx? (fun r => r.oid == oid) with
  | none => none
  | some i =>
      match recs[i]?, (prevOffsets subtreeTag recs)[i]? with
      | some r, some prev => some (i, subtreeTag r.tag, prev)
      | _, _ => none  -- unreachable: findIdx? yields an in-range index

/-- Modelled from the spec and the responder's use of the reserved `last`
index key (the lookup performed when a search runs past the last record):
its prev-offset is the subtree line still open at end of file, so
requests beyond every record can still find a covering subtree. -/
def idxLookupLast (subtreeTag : String → Bool) (recs : List RecordLine) :
    Nat × Bool × Option Nat :=
  (recs.length, false,
    (openStackAux subtreeTag recs 0 []).head?.map Prod.fst)

/-- Modelled from the spec: `searchRecordByOid` binary-searches the text
file, always rounding up to the nearest greater OID — the returned offset
is that of the first record whose OID is strictly greater than the
request, end of file when there is none. -/
def searchRecordByOid (recs : List RecordLine) (oid : Oid) : Nat :=
  match recs.findIdx? (fun r => oidLt oid r.oid) with
  | some i => i
  | none => recs.length

/-! ## The lookup engine (`DataFile.processVarBinds`) -/

/-- A data file as the lookup engine sees it: its path, its parsed
records, and the outcome of `getHandles` (`error` when opening the data
file or its index raises `SnmpsimError`). -/
structure DataFile where
  textFile : String
  recs : List RecordLine
  handles : Except String Unit

/-- The per-request flags handed down by the MIB instrumentation
controller (`readVars`/`readNextVars`/`writeVars`). -/
structure ReqCtx where
  nextFlag : Bool
  setFlag : Bool
  dataValidation : Bool

/-- The per-request default error status: `endOfMib` for GETNEXT-style
requests, `noSuchInstance` otherwise. -/
def defaultErrorStatus (nextFlag : Bool) : Val :=
  if nextFlag then Val.endOfMib else Val.noSuchInstance

/-- The child context built for one varbind before evaluation. -/
def mkCallCtx (req : ReqCtx) (df : DataFile) (oid : Oid) (val : Val)
    (subtreeFlag exactMatch : Bool) (varsTotal varsRemaining : Nat) :
    CallCtx :=
  { nextFlag := req.nextFlag
    setFlag := req.setFlag
    dataValidation := req.dataValidation
    origOid := oid
    origValue := val
    dataFile := df.textFile
    subtreeFlag := subtreeFlag
    exactMatch := exactMatch
    errorStatus := defaultErrorStatus req.nextFlag
    varsTotal := varsTotal
    varsRemaining := varsRemaining
    variationModulesPresent := true
    hexvalue := none
    hextag := none }

/-- Exceptions that abort the whole request: `NoDataNotification` and
`MibOperationError` are re-raised by `processVarBinds`. -/
inductive Abort where
  | noData
  | mibOp
  deriving DecidableEq, Repr

/-- State of the per-varbind `while True` loop: the current line (`none`
for an empty line), the file position (index of the next record a read
would return), and the two match flags. -/
structure LoopState where
  line : Option RecordLine
  pos : Nat
  subtreeFlag : Bool
  exactMatch : Bool

/-- The refinement step at the top of the loop body: on an exact GETNEXT
match of a non-subtree line, advance to the next record and fetch its
subtree flag from the index; on an inexact match, follow the current
line's prev-offset and, when that previous line's OID is a prefix of the
request, use it instead with `subtreeFlag` raised. -/
def refineLine (env : VariationEnv) (req : ReqCtx) (df : DataFile)
    (oid : Oid) (s : LoopState) : LoopState :=
  if s.exactMatch then
    if req.nextFlag && !s.subtreeFlag then
      match df.recs[s.pos]? with
      | some nextRec =>
          match idxLookup env.subtreeTag df.recs nextRec.oid with
          | some (_, stf, _) =>
              { line := some nextRec, pos := s.pos + 1,
                subtreeFlag := stf, exactMatch := s.exactMatch }
          | none =>
              -- index broken: fatal for this varbind
              { s with line := none, pos := s.pos + 1 }
      | none =>
          -- end of file: the read returns an empty line
          { s with line := none }
    else s
  else
    match
      (match s.line with
       | some r => idxLookup env.subtreeTag df.recs r.oid
       | none => some (idxLookupLast env.subtreeTag df.recs)) with
    | none => { s with line := none }  -- index broken: fatal for this varbind
    | some (_, _, prevOffset) =>
        match prevOffset with
        | some p =>
            match df.recs[p]? with
            | some prevLine =>
                if prevLine.oid.isPrefixOf oid then
                  { line := some prevLine, pos := p + 1,
                    subtreeFlag := true, exactMatch := s.exactMatch }
                else s
            | none => s  -- unreachable: prev-offset addresses a record
        | none => s

/-- One full iteration of the loop body: refine, stop with the error
status when no line remains, otherwise evaluate the line; an `endOfMib`
result re-enters the loop with `exactMatch` raised and `subtreeFlag`
cleared, `NoDataNotification` and `MibOperationError` abort the request,
and any other evaluation failure yields the error status for this
varbind. -/
def processLoopStep (env : VariationEnv) (req : ReqCtx) (df : DataFile)
    (oid : Oid) (val : Val) (varsTotal varsRemaining : Nat)
    (s : LoopState) : Except Abort (Oid × Val) ⊕ LoopState :=
  let s := refineLine env req df oid s
  match s.line with
  | none => .inl (.ok (oid, defaultErrorStatus req.nextFlag))
  | some line =>
      let c := mkCallCtx req df oid val s.subtreeFlag s.exactMatch
        varsTotal varsRemaining
      match recordEvaluate env c line with
      | .ok (o, v) =>
          if v = Val.endOfMib then
            .inr { s with subtreeFlag := false, exactMatch := true }
          else .inl (.ok (o, v))
      | .error .noData => .inl (.error .noData)
      | .error .mibOp => .inl (.error .mibOp)
      | .error _ => .inl (.ok (oid, defaultErrorStatus req.nextFlag))

/-- The `while True` loop, fuelled: `none` means the fuel ran out, which
models the loop not terminating within that many iterations. -/
def processLoop (env : VariationEnv) (req : ReqCtx) (df : DataFile)
    (oid : Oid) (val : Val) (varsTotal varsRemaining : Nat) :
    Nat → LoopState → Option (Except Abort (Oid × Val))
  | 0, _ => none
  | fuel + 1, s =>
      match processLoopStep env req df oid val varsTotal varsRemaining s with
      | .inl r => some r
      | .inr s' =>
          processLoop env req df oid val varsTotal varsRemaining fuel s'

/-- Processing of a single varbind: exact index lookup, else the rounding
text search; then the refinement loop. -/
def processOne (env : VariationEnv) (req : ReqCtx) (df : DataFile)
    (varsTotal varsRemaining fuel : Nat) (vb : VarBind) :
    Option (Except Abort (Oid × Val)) :=
  let start :=
    match idxLookup env.subtreeTag df.recs vb.1 with
    | some (offset, subtreeFlag, _) => (offset, subtreeFlag, true)
    | none => (searchRecordByOid df.recs vb.1, false, false)
  processLoop env req df vb.1 vb.2 varsTotal varsRemaining fuel
    { line := df.recs[start.1]?, pos := start.1 + 1,
      subtreeFlag := start.2.1, exactMatch := start.2.2 }

/-- The per-varbind traversal of `processVarBinds`: `varsRemaining` is
decremented before each varbind's loop, responses are appended in
request order, and an abort from any varbind aborts the whole batch. -/
def processVarBindsGo (env : VariationEnv) (req : ReqCtx) (df : DataFile)
    (varsTotal fuel : Nat) :
    List VarBind → Nat → List (Oid × Val) →
    Option (Except Abort (List (Oid × Val)))
  | [], _, acc => some (.ok acc.reverse)
  | vb :: rest, varsRemaining, acc =>
      match processOne env req df varsTotal (varsRemaining - 1) fuel vb with
      | none => none
      | some (.error a) => some (.error a)
      | some (.ok r) =>
          processVarBindsGo env req df varsTotal fuel rest
            (varsRemaining - 1) (r :: acc)

/-- `DataFile.processVarBinds`: when `getHandles` fails with
`SnmpsimError` every requested OID is answered with the default error
status; otherwise each varbind runs through the lookup loop. -/
def processVarBinds (env : VariationEnv) (req : ReqCtx) (df : DataFile)
    (fuel : Nat) (varBinds : List VarBind) :
    Option (Except Abort (List (Oid × Val))) :=
  match df.handles with
  | .error _ =>
      some (.ok (varBinds.map
        (fun vb => (vb.1, defaultErrorStatus req.nextFlag))))
  | .ok _ =>
      processVarBindsGo env req df varBinds.length fuel varBinds
        varBinds.length []

/-! ## Witness fixtures -/

/-- Ambient tables with no loaded variation modules, used by concrete
witnesses. -/
def envNoMods : VariationEnv :=
  { variationModules := []
    subtreeTag := fun _ => false
    hexifyValue := fun _ => none
    getTagByType := fun _ => "" }

/-- A concrete inexact GET call context. -/
def inexactGetCtx : CallCtx :=
  { nextFlag := false, setFlag := false, dataValidation := false
    origOid := [1, 3], origValue := Val.nullV, dataFile := "w.snmprec"
    subtreeFlag := false, exactMatch := false
    errorStatus := Val.noSuchInstance, varsTotal := 1, varsRemaining := 0
    variationModulesPresent := true, hexvalue := none, hextag := none }

/-- A GET request context. -/
def reqGet : ReqCtx := ⟨false, false, false⟩

/-- A one-record data file with open handles. -/
def dfW : DataFile := ⟨"w.snmprec", [⟨[1, 3], "4", "abc"⟩], .ok ()⟩

/-- A two-record data file whose second record references the unloaded
variation module `bad`. -/
def dfU : DataFile :=
  ⟨"u.snmprec", [⟨[1, 3], "4", "abc"⟩, ⟨[1, 4], "4:bad", "x"⟩], .ok ()⟩

/-! ## Subtree coverage (C3) -/

/-- Modelled from the spec: the subtree wildcard marker on a tag.  In the
record grammar a line serving a whole subtree has an empty type code in
front of its variation-module reference, so the marker is a tag beginning
with the module separator. -/
def subtreeTagColon (tag : String) : Bool :=
  match tag.toList with
  | ':' :: _ => true
  | _ => false

/-- A variation module returning a fixed typed value. -/
def vmConst : VarFn := fun _ oid tag _ => .ok (oid, tag, Val.typed "4" "v")

/-- Ambient tables with the single loaded variation module `m`. -/
def envSubtree : VariationEnv :=
  { variationModules := [("m", vmConst)]
    subtreeTag := subtreeTagColon
    hexifyValue := fun _ => none
    getTagByType := fun _ => "" }

/-- Record file with nested subtree records `1` and `1.3` followed by the
plain record `2`. -/
def dfNested : DataFile :=
  ⟨"cex.snmprec",
   [⟨[1], ":m", ""⟩, ⟨[1, 3], ":m", ""⟩, ⟨[2], "2", "0"⟩], .ok ()⟩

/-- Record file with the subtree record `1.3` covering the request
`1.3.5`, whose rounded-up neighbour `1.3.9` carries the prev-offset
back to it. -/
def dfSub : DataFile :=
  ⟨"s.snmprec", [⟨[1, 3], ":m", ""⟩, ⟨[1, 3, 9], "2", "0"⟩], .ok ()⟩

/-! ## v2c-to-v1 translation (`commandResponderCbFun`) -/

/-- The `errorMap` of the v2c-to-v1 translation, keyed by the value's
pyasn1 tag set: `Counter64` (snmprec type code 70) maps to error status 5
(genErr); `NoSuchObject`, `NoSuchInstance` and `EndOfMibView` map to 2
(noSuchName); every other tag set is absent from the map. -/
def errorMapLookup : Val → Option Nat
  | .typed t _ => if t = "70" then some 5 else none
  | .noSuchObject => some 2
  | .noSuchInstance => some 2
  | .endOfMib => some 2
  | _ => none

/-- The scan over the response varbinds: the error status and 1-based
index of the first varbind whose value's tag set is in the error map
(the loop breaks at the first hit), `none` when there is none. -/
def scanVarBinds : List VarBind → Nat → Option (Nat × Nat)
  | [], _ => none
  | vb :: rest, idx =>
      match errorMapLookup vb.2 with
      | some st => some (st, idx + 1)
      | none => scanVarBinds rest (idx + 1)

/-- The response finalisation of `commandResponderCbFun`: the varbinds,
error-status and error-index fields of the sent response PDU.  For a v1
message (`msgVer = 0`) with an offending response value the varbinds are
replaced by the request's and the error fields set; otherwise the
computed response is sent with the zero error fields a well-formed
request message carries into `getResponse`. -/
def v1Translate (msgVer : Nat) (reqVarBinds rspVarBinds : List VarBind) :
    List VarBind × Nat × Nat :=
  if msgVer = 0 then
    match scanVarBinds rspVarBinds 0 with
    | some (st, ei) => (reqVarBinds, st, ei)
    | none => (rspVarBinds, 0, 0)
  else (rspVarBinds, 0, 0)

/-! ## Context registration (`configureManagedObjects`, v3 mode)

The MD5 hex digest lives in the standard library, so it is a parameter
of the model; its digests are 32 characters long, which theorems take as
a hypothesis on the parameter.  Record stores are identified by
numbers. -/

/-- One data file's v3 registrations: the MD5 hex digest of the
community name is always registered as a context name for the file's
record store; the literal community name is registered additionally when
its length does not exceed 32 (the snmpCommunityIndex limit). -/
def registerV3 (md5hex : String → String) (communityName : String)
    (store : Nat) : List (String × Nat) :=
  (md5hex communityName, store) ::
    (if communityName.length ≤ 32 then [(communityName, store)] else [])

/-- The v3 branch of `configureManagedObjects`: walk the discovered data
files in order, skip any repeated community name, and accumulate the
context-name registrations of the rest. -/
def configureManagedObjects (md5hex : String → String) :
    List (String × Nat) → List String → List (String × Nat)
  | [], _ => []
  | (c, s) :: rest, seen =>
      if c ∈ seen then configureManagedObjects md5hex rest seen
      else registerV3 md5hex c s ++
        configureManagedObjects md5hex rest (c :: seen)

/-- A stand-in digest function whose output has the MD5 hex length. -/
def md5hexW : String → String := fun _ => "0123456789abcdef0123456789abcdef"

/-! ## Context probing (`probeContext`)

The transport-domain OIDs are those of the transport library; the path
normalisation (`os.path.normpath`) also lives in the standard library, so
it is a parameter of the model.  On a POSIX host `os.path.sep` is `/`,
so the join separator already is the one the final replacement maps
to. -/

/-- `udp.domainName` of the transport library (snmpUDPDomain). -/
def udpDomainName : List Nat := [1, 3, 6, 1, 6, 1, 1]

/-- `udp6.domainName` of the transport library (transportDomainUdpIpv6). -/
def udp6DomainName : List Nat := [1, 3, 6, 1, 2, 1, 100, 1, 2]

/-- `unix.domainName` of the transport library (transportDomainLocal). -/
def unixDomainName : List Nat := [1, 3, 6, 1, 2, 1, 100, 1, 13]

/-- A transport address as delivered by the dispatcher: a `(host, port)`
pair for the UDP transports, a socket path for the Unix transport. -/
inductive TransportAddress where
  | ip (host : String) (port : Nat)
  | unixPath (path : String)

/-- The transport-specific path component appended by `probeContext`:
the IPv4 address literal, the IPv6 literal with `:` replaced by `_`, or
the Unix socket path; nothing for an unrecognised domain.  A
domain/address pairing that cannot occur at run time (a UDP domain with
a Unix address or vice versa) is rendered as an empty component, which
the subsequent filter removes. -/
def transportElem (transportDomain : List Nat) (ta : TransportAddress) :
    List String :=
  if udpDomainName.isPrefixOf transportDomain then
    match ta with
    | .ip host _ => [host]
    | .unixPath _ => [""]
  else if udp6DomainName.isPrefixOf transportDomain then
    match ta with
    | .ip host _ => [host.replace ":" "_"]
    | .unixPath _ => [""]
  else if unixDomainName.isPrefixOf transportDomain then
    match ta with
    | .unixPath path => [path]
    | .ip _ _ => [""]
  else []

/-- The candidate component list of `probeContext` before path joining:
`contextEngineId` (when non-empty), `contextName` and the dotted
transport domain, plus the transport element, with empty components
filtered out. -/
def probeComponents (transportDomain : List Nat) (ta : TransportAddress)
    (contextEngineId contextName : String) : List String :=
  let dotted := String.intercalate "." (transportDomain.map toString)
  let base :=
    if contextEngineId ≠ "" then [contextEngineId, contextName, dotted]
    else [contextName, dotted]
  (base ++ transportElem transportDomain ta).filter (fun x => x ≠ "")

/-- Join components with `/` and normalise the resulting path. -/
def pathOf (normPath : String → String) (cs : List String) : String :=
  normPath (String.intercalate "/" cs)

/-- The `while candidate:` loop of `probeContext`: yield the joined,
normalised path, then drop the last component and repeat until the
component list is empty. -/
def probeDescend (normPath : String → String) : List String → List String
  | [] => []
  | c :: cs =>
      pathOf normPath (c :: cs) :: probeDescend normPath ((c :: cs).dropLast)
  termination_by l => l.length
  decreasing_by simp [List.length_dropLast]

/-- `probeContext`: the candidate sequence for the given transport and
naming inputs.  When `contextEngineId` is non-empty the generator
recurses once more with it emptied (the legacy layout fallback). -/
def probeContext (normPath : String → String) (transportDomain : List Nat)
    (ta : TransportAddress) (contextEngineId contextName : String) :
    List String :=
  probeDescend normPath
      (probeComponents transportDomain ta contextEngineId contextName) ++
    (if _h : contextEngineId = "" then []
     else probeContext normPath transportDomain ta "" contextName)
  termination_by (if contextEngineId = "" then 0 else 1)
  decreasing_by simp [*]

/-- One round of candidates exactly as the claim words it: the
normalised path of the non-empty components, then of the components with
the last one removed, and so on until the list is empty. -/
def probeSpecOnce (normPath : String → String) (cs : List String) :
    List String :=
  (List.range cs.length).map
    (fun i => pathOf normPath (cs.take (cs.length - i)))

/-- The claim's candidate sequence: one round over the components with
`contextEngineId` included when non-empty, followed — in that case — by
one round with it omitted. -/
def probeContextSpec (normPath : String → String)
    (transportDomain : List Nat) (ta : TransportAddress)
    (contextEngineId contextName : String) : List String :=
  probeSpecOnce normPath
      (probeComponents transportDomain ta contextEngineId contextName) ++
    (if contextEngineId = "" then []
     else probeSpecOnce normPath
       (probeComponents transportDomain ta "" contextName))

/-- The repetition counter after `k` iterations is `M - k`. -/
theorem bulkLoop_M (readNextVars : List VarBind → List VarBind) (R : Nat)
    (s : BulkState) (k : Nat) :
    ((bulkStep readNextVars R)^[k] s).M = s.M - k := by
  induction k generalizing s with
  | zero => simp
  | succ n ih =>
      rw [Function.iterate_succ_apply, ih]
      simp [bulkStep]
      ring

/-- `loopCount` returns `k` exactly when the counter is the integer `k`,
i.e. when the guard `M ≠ 0` first fails after `k` subtractions. -/
theorem loopCount_eq_some_iff (M : ℚ) (k : Nat) :
    loopCount M = some k ↔ M = (k : ℚ) := by
  unfold loopCount
  constructor
  · intro h
    split at h
    · rename_i hc
      have hnum : M.num.toNat = k := by simpa using h
      have : (M.num : ℚ) = M := by
        exact_mod_cast Rat.den_eq_one_iff M |>.mp hc.1
      rw [← this, ← hnum]
      exact_mod_cast (Int.toNat_of_nonneg hc.2).symm
    · exact absurd h (by simp)
  · intro h
    subst h
    simp

/-- When `loopCount` gives no count, the guard never fails: `M - j` is
nonzero for every `j`, so the `while` loop does not terminate. -/
theorem loopCount_none_no_exit (M : ℚ) (h : loopCount M = none) (j : Nat) :
    M - (j : ℚ) ≠ 0 := by
  intro hz
  have : M = (j : ℚ) := by linarith
  have := (loopCount_eq_some_iff M j).mpr this
  rw [h] at this
  exact Option.noConfusion this

/-! ## Claim theorems: handle cache and GETBULK -/

/-- C2: the claim (and the source's own comment on `maxQueueEntries`)
bounds the number of open record stores by `K = 31` and has the 32nd
distinct open evict the oldest store.  The code evicts only when the
queue already exceeds 31 entries, so after a sequence of `getHandles`
calls on 32 distinct, previously unopened data files all 32 stores are
open and none has been closed; the first eviction — of store 0, the
oldest — happens only at the 33rd open, which still leaves 32 stores
open. -/
theorem handle_cache_overflows_cap :
    (openAll (List.range 32)).openedQueue.length = 32 ∧
    (openAll (List.range 32)).closed = [] ∧
    (openAll (List.range 33)).closed = [0] ∧
    (openAll (List.range 33)).openedQueue.length = 32 := by
  set_option maxRecDepth 8000 in decide

/-- C1: at the failing input — three repeating varbinds, `nonRepeaters =
0`, `maxRepetitions = 22`, `maxVarBinds = 64` — the clamp computes the
non-integral `64/3` by Python 3 true division; the repetition counter
then never reaches zero, so the `while` loop never exits (the handler is
`none`) whatever `readNextVars` does, while the claim promises
termination with `0 + 3 · min(22, ⌊64/3⌋) = 63` response bindings. -/
theorem getBulkHandler_diverges_on_fractional_M
    (readNextVars : List VarBind → List VarBind) :
    getBulkHandler 64 readNextVars
      [([1, 3], Val.nullV), ([1, 4], Val.nullV), ([1, 5], Val.nullV)]
      0 22 = none := by
  have hnone : loopCount ((64 : ℚ) / 3) = none := by
    cases h : loopCount ((64 : ℚ) / 3) with
    | none => rfl
    | some k =>
        exfalso
        have hk := (loopCount_eq_some_iff _ _).mp h
        have h3 : (64 : ℚ) = 3 * (k : ℚ) := by
          field_simp at hk
          linarith
        have h4 : (64 : Nat) = 3 * k := by exact_mod_cast h3
        omega
  simp only [getBulkHandler, List.length_cons, List.length_nil]
  norm_num
  rw [hnone]

/-! ## Claim theorems: error degradation and the evaluator short-circuit -/

/-- C10: when `getHandles` fails with `SnmpsimError`, `processVarBinds`
does not propagate the failure: it answers every requested OID with the
default error status — `endOfMib` when `nextFlag` is set, `noSuchInstance`
otherwise. -/
theorem processVarBinds_handles_failure (env : VariationEnv) (req : ReqCtx)
    (textFile : String) (recs : List RecordLine) (msg : String)
    (fuel : Nat) (varBinds : List VarBind) :
    processVarBinds env req ⟨textFile, recs, .error msg⟩ fuel varBinds =
      some (.ok (varBinds.map (fun vb =>
        (vb.1, if req.nextFlag then Val.endOfMib else Val.noSuchInstance)))) := by
  simp [processVarBinds, defaultErrorStatus]

/-- C5: a call to `evaluateValue` whose tag names no variation module
short-circuits in `set` mode or on an inexact non-NEXT (GET) match: it
returns the context's original request OID together with the error
status, which is `noSuchInstance` since these calls carry `nextFlag`
unset (the error status is the one `processVarBinds` computes from
`nextFlag`). -/
theorem evaluateValue_short_circuit (env : VariationEnv) (c : CallCtx)
    (oid : Oid) (tag : String) (v : Val)
    (hmod : ((splitTag tag).1.getD "") = "")
    (hcond : c.setFlag = true ∨ (c.nextFlag = false ∧ c.exactMatch = false))
    (hnext : c.nextFlag = false)
    (herr : c.errorStatus = defaultErrorStatus c.nextFlag) :
    evaluateValue env c oid tag v =
      .ok (c.origOid, (splitTag tag).2, Val.noSuchInstance) := by
  have hcondb : ((!c.nextFlag && !c.exactMatch) || c.setFlag) = true := by
    rcases hcond with hset | ⟨hn, he⟩
    · simp [hset]
    · simp [hn, he]
  unfold evaluateValue
  simp [hmod, hcondb, herr, hnext, defaultErrorStatus]
  intro h1 h2
  rw [hnext, h1, h2] at hcondb
  simp at hcondb

/-- Witness for `evaluateValue_short_circuit`: a concrete inexact GET on
a moduleless tag yields the original OID with `noSuchInstance`. -/
theorem evaluateValue_short_circuit_witness :
    evaluateValue envNoMods inexactGetCtx [1, 3, 5] "4" (Val.pyStr "abc") =
      .ok ([1, 3], "4", Val.noSuchInstance) :=
  evaluateValue_short_circuit envNoMods inexactGetCtx [1, 3, 5] "4"
    (Val.pyStr "abc") (by decide) (Or.inr ⟨rfl, rfl⟩) rfl rfl

/-! ## Batch traversal correspondence -/

/-- Correspondence between the batch traversal and per-varbind lookup: a
normal return appends, after the accumulator, exactly one response per
request varbind, the i-th being the per-varbind result of the i-th
request processed with `varsRemaining = vr - (i+1)`. -/
theorem processVarBindsGo_spec (env : VariationEnv) (req : ReqCtx)
    (df : DataFile) (varsTotal fuel : Nat) :
    ∀ (vbs : List VarBind) (vr : Nat) (acc rsp : List (Oid × Val)),
      processVarBindsGo env req df varsTotal fuel vbs vr acc =
          some (.ok rsp) →
      ∃ tail : List (Oid × Val),
        rsp = acc.reverse ++ tail ∧ tail.length = vbs.length ∧
        ∀ i (h1 : i < vbs.length) (h2 : i < tail.length),
          processOne env req df varsTotal (vr - (i + 1)) fuel
              (vbs.get ⟨i, h1⟩) = some (.ok (tail.get ⟨i, h2⟩)) := by
  intro vbs
  induction vbs with
  | nil =>
      intro vr acc rsp h
      simp only [processVarBindsGo, Option.some.injEq, Except.ok.injEq] at h
      refine ⟨[], by simp [← h], rfl, ?_⟩
      intro i h1 h2
      exact absurd h1 (by simp)
  | cons vb rest ih =>
      intro vr acc rsp h
      simp only [processVarBindsGo] at h
      cases hpo : processOne env req df varsTotal (vr - 1) fuel vb with
      | none => rw [hpo] at h; exact absurd h (by simp)
      | some res =>
          cases res with
          | error a => rw [hpo] at h; exact absurd h (by simp)
          | ok rv =>
              rw [hpo] at h
              obtain ⟨tail, hrsp, hlen, hidx⟩ := ih (vr - 1) (rv :: acc) rsp h
              refine ⟨rv :: tail, ?_, by simp [hlen], ?_⟩
              · simpa [List.append_assoc] using hrsp
              · intro i h1 h2
                cases i with
                | zero => simpa using hpo
                | succ n =>
                    have h1' : n < rest.length := by simpa using h1
                    have h2' : n < tail.length := by simpa using h2
                    have hn := hidx n h1' h2'
                    have harith : vr - 1 - (n + 1) = vr - (n + 1 + 1) := by
                      omega
                    rw [harith] at hn
                    simpa using hn

/-- C6: a normal return of `processVarBinds` (no `NoDataNotification`, no
`MibOperationError`) carries exactly one response binding per request
binding; on the lookup path (open handles) the i-th response binding is
the per-varbind lookup result of the i-th request binding, so request
order is preserved in the response. -/
theorem processVarBinds_preserves_order (env : VariationEnv) (req : ReqCtx)
    (df : DataFile) (fuel : Nat) (varBinds : List VarBind)
    (rsp : List (Oid × Val))
    (h : processVarBinds env req df fuel varBinds = some (.ok rsp)) :
    rsp.length = varBinds.length ∧
    (∀ u : Unit, df.handles = .ok u →
      ∀ i (h1 : i < varBinds.length) (h2 : i < rsp.length),
        processOne env req df varBinds.length (varBinds.length - (i + 1))
            fuel (varBinds.get ⟨i, h1⟩) = some (.ok (rsp.get ⟨i, h2⟩))) := by
  unfold processVarBinds at h
  cases hh : df.handles with
  | error msg =>
      rw [hh] at h
      simp only [Option.some.injEq, Except.ok.injEq] at h
      constructor
      · rw [← h]; simp
      · intro u hu
        simp [hh] at hu
  | ok u =>
      rw [hh] at h
      obtain ⟨tail, hrsp, hlen, hidx⟩ :=
        processVarBindsGo_spec env req df varBinds.length fuel varBinds
          varBinds.length [] rsp h
      simp only [List.reverse_nil, List.nil_append] at hrsp
      subst hrsp
      refine ⟨hlen, ?_⟩
      intro u' hu' i h1 h2
      exact hidx i h1 h2

/-- Witness for `processVarBinds_preserves_order`: a one-varbind GET on a
one-record file, whose single response binding is the per-varbind lookup
result. -/
theorem processVarBinds_preserves_order_witness :
    processOne envNoMods reqGet dfW 1 0 2 ([1, 3], Val.nullV) =
      some (.ok ([1, 3], Val.typed "4" "abc")) := by
  have h := processVarBinds_preserves_order envNoMods reqGet dfW 2
    [([1, 3], Val.nullV)] [([1, 3], Val.typed "4" "abc")] (by rfl)
  exact h.2 () rfl 0 (by decide) (by decide)

/-! ## Unknown variation modules (C7) -/

/-- On an exact non-NEXT match whose record tag names an unloaded
variation module, the per-varbind lookup answers the requested OID with
the default error status: the `SnmpsimError` raised inside evaluation is
contained within this varbind. -/
theorem processOne_unknown_variation (env : VariationEnv) (req : ReqCtx)
    (df : DataFile) (varsTotal varsRemaining fuel : Nat) (vb : VarBind)
    (k : Nat) (stf : Bool) (prev : Option Nat) (r : RecordLine)
    (mName : String)
    (hnext : req.nextFlag = false)
    (hlook : idxLookup env.subtreeTag df.recs vb.1 = some (k, stf, prev))
    (hrec : df.recs[k]? = some r)
    (hmn : (splitTag r.tag).1 = some mName) (hmne : mName ≠ "")
    (hmod : env.variationModules.lookup mName = none)
    (hfuel : 0 < fuel) :
    processOne env req df varsTotal varsRemaining fuel vb =
      some (.ok (vb.1, Val.noSuchInstance)) := by
  obtain ⟨f, rfl⟩ : ∃ f, fuel = f + 1 := ⟨fuel - 1, by omega⟩
  unfold processOne
  rw [hlook]
  simp only [processLoop, processLoopStep, refineLine, hnext, Bool.false_and,
    if_neg, ite_false, Bool.false_eq_true]
  rw [hrec]
  simp only [recordEvaluate, evaluateValue, hmn, Option.getD_some, hmne,
    ite_true, if_pos, mkCallCtx, hmod, ite_self]
  simp [defaultErrorStatus, hnext, hmne]

/-- C7: a record whose tag carries a `:MODULE` reference to a module
absent from the loaded `variationModules` table makes value evaluation
fail with the unknown-variation `SnmpsimError`; `processVarBinds`
confines that failure to the varbind that hit the record — it is
answered with the requested OID and the default error status — while
every varbind of the batch is still answered by its own per-varbind
lookup result. -/
theorem unknown_variation_per_varbind (env : VariationEnv) (req : ReqCtx)
    (df : DataFile) (fuel : Nat) (varBinds : List VarBind)
    (rsp : List (Oid × Val)) (i : Nat) (hi : i < varBinds.length)
    (k : Nat) (stf : Bool) (prev : Option Nat) (r : RecordLine)
    (mName : String)
    (hnext : req.nextFlag = false)
    (hh : df.handles = .ok ())
    (hlook : idxLookup env.subtreeTag df.recs (varBinds.get ⟨i, hi⟩).1 =
      some (k, stf, prev))
    (hrec : df.recs[k]? = some r)
    (hmn : (splitTag r.tag).1 = some mName)
    (hmne : mName ≠ "")
    (hmod : env.variationModules.lookup mName = none)
    (hfuel : 0 < fuel)
    (h : processVarBinds env req df fuel varBinds = some (.ok rsp)) :
    (∀ (c : CallCtx) (v : Val),
        evaluateValue env c r.oid r.tag v =
          .error (.snmpsim
            ("Variation module " ++ mName ++ " referenced but not loaded"))) ∧
    ∃ h2 : i < rsp.length,
      rsp.get ⟨i, h2⟩ = ((varBinds.get ⟨i, hi⟩).1, Val.noSuchInstance) ∧
      ∀ j (hj : j < varBinds.length) (hj2 : j < rsp.length),
        processOne env req df varBinds.length (varBinds.length - (j + 1))
            fuel (varBinds.get ⟨j, hj⟩) = some (.ok (rsp.get ⟨j, hj2⟩)) := by
  constructor
  · intro c v
    unfold evaluateValue
    simp only [hmn, Option.getD_some, ne_eq, hmne, not_false_eq_true,
      ite_true, hmod, ite_self, if_true]
  · unfold processVarBinds at h
    rw [hh] at h
    obtain ⟨tail, hrsp, hlen, hidx⟩ :=
      processVarBindsGo_spec env req df varBinds.length fuel varBinds
        varBinds.length [] rsp h
    simp only [List.reverse_nil, List.nil_append] at hrsp
    subst hrsp
    have h2 : i < rsp.length := by rw [hlen]; exact hi
    refine ⟨h2, ?_, ?_⟩
    · have ha := hidx i hi h2
      have hb := processOne_unknown_variation env req df varBinds.length
        (varBinds.length - (i + 1)) fuel (varBinds.get ⟨i, hi⟩) k stf prev r
        mName hnext hlook hrec hmn hmne hmod hfuel
      rw [ha] at hb
      simpa using hb
    · exact hidx

/-- Witness for `unknown_variation_per_varbind`: a two-varbind GET batch
whose second varbind hits the record tagged `4:bad`; that varbind is
answered `noSuchInstance` while the first is answered from its record. -/
theorem unknown_variation_per_varbind_witness :
    (∀ (c : CallCtx) (v : Val),
        evaluateValue envNoMods c [1, 4] "4:bad" v =
          .error (.snmpsim "Variation module bad referenced but not loaded")) ∧
    ∃ h2 : 1 < ([([1, 3], Val.typed "4" "abc"),
                 ([1, 4], Val.noSuchInstance)] : List (Oid × Val)).length,
      ([([1, 3], Val.typed "4" "abc"),
        ([1, 4], Val.noSuchInstance)] : List (Oid × Val)).get ⟨1, h2⟩ =
          ([1, 4], Val.noSuchInstance) ∧
      ∀ j (hj : j < ([([1, 3], Val.nullV), ([1, 4], Val.nullV)] :
            List VarBind).length)
        (hj2 : j < ([([1, 3], Val.typed "4" "abc"),
                     ([1, 4], Val.noSuchInstance)] : List (Oid × Val)).length),
        processOne envNoMods reqGet dfU 2 (2 - (j + 1)) 2
            (([([1, 3], Val.nullV), ([1, 4], Val.nullV)] :
              List VarBind).get ⟨j, hj⟩) =
          some (.ok (([([1, 3], Val.typed "4" "abc"),
                       ([1, 4], Val.noSuchInstance)] :
                      List (Oid × Val)).get ⟨j, hj2⟩)) := by
  exact unknown_variation_per_varbind envNoMods reqGet dfU 2
    [([1, 3], Val.nullV), ([1, 4], Val.nullV)]
    [([1, 3], Val.typed "4" "abc"), ([1, 4], Val.noSuchInstance)]
    1 (by decide) 1 false none ⟨[1, 4], "4:bad", "x"⟩ "bad"
    rfl rfl (by rfl) (by rfl) (by decide) (by decide) (by rfl) (by decide)
    (by rfl)

/-- C3 counterexample: record `1` is subtree-marked, the requested OID
`1.5` lies strictly below it and has no record of its own, and the
module `m` is loaded — yet the GET answers `noSuchInstance`, not a value
derived from record `1`: the engine rounds up to record `2`, whose
prev-offset does not reach the covering record, and only one prev-offset
link is ever followed. -/
theorem subtree_get_counterexample :
    idxLookup envSubtree.subtreeTag dfNested.recs [1] = some (0, true, none) ∧
    ([1] : Oid).isPrefixOf [1, 5] = true ∧ ([1] : Oid) ≠ [1, 5] ∧
    dfNested.recs.findIdx? (fun r => r.oid == [1, 5]) = none ∧
    envSubtree.variationModules.lookup "m" = some vmConst ∧
    processVarBinds envSubtree reqGet dfNested 4 [([1, 5], Val.nullV)] =
      some (.ok [([1, 5], Val.noSuchInstance)]) := by
  exact ⟨by rfl, by decide, by decide, by rfl, by rfl, by rfl⟩

/-- C3 as amended: when, additionally, the index entry of the first
record whose OID is strictly greater than the request carries a
prev-offset whose record `O` has an OID that is a prefix of the request,
and `O`'s tag names a loaded variation module, the GET is answered by
evaluating record `O` with `subtreeFlag = true` and `exactMatch = false`
— the call context passed to the module in `hvar` is exactly that one —
and the response binding is the module's (typed, non-`endOfMib`) result
derived from `O`, not a `noSuchInstance` error. -/
theorem subtree_get_amended (env : VariationEnv) (req : ReqCtx)
    (df : DataFile) (fuel : Nat) (oid : Oid) (v : Val)
    (varsTotal varsRemaining : Nat) (j p : Nat) (sj : Bool)
    (jr O : RecordLine) (vm : VarFn) (mName : String) (ro : Oid)
    (rt : String) (rv : Val)
    (_hnext : req.nextFlag = false) (hset : req.setFlag = false)
    (hdv : req.dataValidation = false)
    (hnorec : idxLookup env.subtreeTag df.recs oid = none)
    (hsearch : searchRecordByOid df.recs oid = j)
    (hjr : df.recs[j]? = some jr)
    (hjentry : idxLookup env.subtreeTag df.recs jr.oid = some (j, sj, some p))
    (hO : df.recs[p]? = some O)
    (hpre : O.oid.isPrefixOf oid = true)
    (hmn : (splitTag O.tag).1 = some mName) (hmne : mName ≠ "")
    (hvm : env.variationModules.lookup mName = some vm)
    (hvar : vm (mkCallCtx req df oid v true false varsTotal varsRemaining)
        O.oid (splitTag O.tag).2 (.pyStr O.value) = .ok (ro, rt, rv))
    (htagset : rv.hasTagSet = true) (hnem : rv ≠ Val.endOfMib)
    (hfuel : 0 < fuel) :
    processOne env req df varsTotal varsRemaining fuel (oid, v) =
      some (.ok (ro, rv)) := by
  obtain ⟨f, rfl⟩ : ∃ f, fuel = f + 1 := ⟨fuel - 1, by omega⟩
  unfold processOne
  rw [hnorec, hsearch]
  simp only [processLoop, processLoopStep, refineLine, Bool.false_eq_true,
    if_false, hjr, hjentry, hO, hpre, ite_true]
  simp only [mkCallCtx, hset, hdv] at hvar
  simp only [recordEvaluate, evaluateValue, hmn, Option.getD_some, ne_eq,
    hmne, not_false_eq_true, ite_true, mkCallCtx, hvm, hdv, hset,
    Bool.false_eq_true, if_false, hvar, htagset, if_true]
  simp [hnem]

/-- Witness for `subtree_get_amended`: a GET on `1.3.5` below the subtree
record `1.3` is answered with the module's value. -/
theorem subtree_get_amended_witness :
    processOne envSubtree reqGet dfSub 1 0 2 ([1, 3, 5], Val.nullV) =
      some (.ok ([1, 3], Val.typed "4" "v")) := by
  exact subtree_get_amended envSubtree reqGet dfSub 2 [1, 3, 5] Val.nullV 1 0
    1 0 false ⟨[1, 3, 9], "2", "0"⟩ ⟨[1, 3], ":m", ""⟩ vmConst "m"
    [1, 3] "" (Val.typed "4" "v")
    rfl rfl rfl (by rfl) (by rfl) (by rfl) (by rfl) (by rfl) (by decide)
    (by rfl) (by decide) (by rfl) (by rfl) (by decide) (by decide)
    (by decide)

/-- The scan finds exactly the first offending varbind: if position `k`
offends and no earlier position does, the scan started at `base` stops at
`k` with its error status and the 1-based index `base + k + 1`. -/
theorem scanVarBinds_first :
    ∀ (rsp : List VarBind) (k st base : Nat) (hk : k < rsp.length),
      errorMapLookup (rsp.get ⟨k, hk⟩).2 = some st →
      (∀ j (hj : j < rsp.length), j < k →
        errorMapLookup (rsp.get ⟨j, hj⟩).2 = none) →
      scanVarBinds rsp base = some (st, base + k + 1) := by
  intro rsp
  induction rsp with
  | nil => intro k st base hk; exact absurd hk (by simp)
  | cons vb rest ih =>
      intro k st base hk hoff hfirst
      cases k with
      | zero =>
          simp only [List.get] at hoff
          simp [scanVarBinds, hoff]
      | succ n =>
          have h0 : errorMapLookup vb.2 = none := by
            have := hfirst 0 (by simp) (by omega)
            simpa using this
          have hn : n < rest.length := by simpa using hk
          have hoff' : errorMapLookup (rest.get ⟨n, hn⟩).2 = some st := by
            simpa using hoff
          have hfirst' : ∀ j (hj : j < rest.length), j < n →
              errorMapLookup (rest.get ⟨j, hj⟩).2 = none := by
            intro j hj hjn
            have := hfirst (j + 1) (by simpa using hj) (by omega)
            simpa using this
          have := ih n st (base + 1) hn hoff' hfirst'
          simp only [scanVarBinds, h0]
          rw [this]
          congr 2
          omega

/-- C4: when the incoming version is v1 and the computed response's first
offending binding sits at position `k` (its value's tag set being in the
error map: 5 for Counter64, 2 for NoSuchObject, NoSuchInstance and
EndOfMibView), the sent PDU carries the request's varbinds, that error
status, and error index `k + 1`; the scan stops at the first offender,
and responses to requests of any other version are never rewritten. -/
theorem v1_translation (req rsp : List VarBind) (k st : Nat)
    (hk : k < rsp.length)
    (hoff : errorMapLookup (rsp.get ⟨k, hk⟩).2 = some st)
    (hfirst : ∀ j (hj : j < rsp.length), j < k →
      errorMapLookup (rsp.get ⟨j, hj⟩).2 = none) :
    v1Translate 0 req rsp = (req, st, k + 1) ∧
    ∀ msgVer, msgVer ≠ 0 → v1Translate msgVer req rsp = (rsp, 0, 0) := by
  constructor
  · have hs := scanVarBinds_first rsp k st 0 hk hoff hfirst
    simp [v1Translate, hs]
  · intro msgVer hns
    simp [v1Translate, hns]

/-- Witness for `v1_translation`: a response whose second binding is
`EndOfMibView` is rewritten for v1 with error status 2 and index 2, and
kept intact for v2c. -/
theorem v1_translation_witness :
    v1Translate 0 [([1], Val.nullV), ([2], Val.nullV)]
        [([1], Val.typed "2" "5"), ([2], Val.endOfMib)] =
      ([([1], Val.nullV), ([2], Val.nullV)], 2, 2) ∧
    ∀ msgVer, msgVer ≠ 0 →
      v1Translate msgVer [([1], Val.nullV), ([2], Val.nullV)]
          [([1], Val.typed "2" "5"), ([2], Val.endOfMib)] =
        ([([1], Val.typed "2" "5"), ([2], Val.endOfMib)], 0, 0) := by
  exact v1_translation [([1], Val.nullV), ([2], Val.nullV)]
    [([1], Val.typed "2" "5"), ([2], Val.endOfMib)] 1 2 (by decide)
    (by decide) (by intro j hj hj1; interval_cases j; rfl)

/-- A community name longer than 32 bytes is never registered literally:
every registered name is either some community's 32-character digest or a
literal of length at most 32. -/
theorem configureManagedObjects_no_long_literal (md5hex : String → String)
    (hdigest : ∀ x, (md5hex x).length = 32) (c : String)
    (hlen : 32 < c.length) :
    ∀ (files : List (String × Nat)) (seen : List String) (s' : Nat),
      (c, s') ∉ configureManagedObjects md5hex files seen := by
  intro files
  induction files with
  | nil => intro seen s'; simp [configureManagedObjects]
  | cons f rest ih =>
      intro seen s'
      obtain ⟨c2, s2⟩ := f
      simp only [configureManagedObjects]
      split
      · exact ih seen s'
      · intro hmem
        rw [List.mem_append] at hmem
        rcases hmem with hreg | hrest
        · simp only [registerV3, List.mem_cons] at hreg
          rcases hreg with heq | hlit
          · have hcm : c = md5hex c2 := congrArg Prod.fst heq
            have h32 := hdigest c2
            rw [← hcm] at h32
            omega
          · split at hlit
            · simp only [List.mem_singleton] at hlit
              have hcc : c = c2 := congrArg Prod.fst hlit
              rename_i hle
              rw [← hcc] at hle
              omega
            · simp at hlit
        · exact ih (c2 :: seen) s' hrest

/-- The first data file discovered with community name `c` gets its
digest registered for its store, and its literal registered exactly when
the name is short enough. -/
theorem configureManagedObjects_mem (md5hex : String → String) :
    ∀ (files : List (String × Nat)) (seen : List String) (c : String)
      (s : Nat), c ∉ seen → files.lookup c = some s →
      (md5hex c, s) ∈ configureManagedObjects md5hex files seen ∧
      (c.length ≤ 32 → (c, s) ∈ configureManagedObjects md5hex files seen) := by
  intro files
  induction files with
  | nil => intro seen c s hns hlk; simp [List.lookup] at hlk
  | cons f rest ih =>
      intro seen c s hns hlk
      obtain ⟨c2, s2⟩ := f
      by_cases hbeq : c = c2
      · subst hbeq
        have hs : s2 = s := by
          simp [List.lookup] at hlk
          exact hlk
        subst hs
        simp only [configureManagedObjects, if_neg hns]
        constructor
        · exact List.mem_append_left _ (List.mem_cons_self _ _)
        · intro hle
          refine List.mem_append_left _ ?_
          simp [registerV3, if_pos hle]
      · have hb : (c == c2) = false := beq_eq_false_iff_ne.mpr hbeq
        have hlk' : rest.lookup c = some s := by
          simpa [List.lookup, hb] using hlk
        simp only [configureManagedObjects]
        split
        · exact ih seen c s hns hlk'
        · have hns' : c ∉ c2 :: seen := by
            simp [hbeq, hns]
          obtain ⟨h1, h2⟩ := ih (c2 :: seen) c s hns' hlk'
          exact ⟨List.mem_append_right _ h1,
            fun hle => List.mem_append_right _ (h2 hle)⟩

/-- C8: for every data file discovered with community name `c` (its
first occurrence, with record store `s`), v3 configuration always
registers the MD5 hex digest of `c` as a context name for `s`, and
registers the literal `c` for `s` if and only if `c` is at most 32 bytes
long — so for short names both the hash lookup and the literal lookup
resolve to the same record store `s`. -/
theorem configureManagedObjects_registration (md5hex : String → String)
    (hdigest : ∀ x, (md5hex x).length = 32)
    (files : List (String × Nat)) (seen : List String) (c : String)
    (s : Nat) (hnew : c ∉ seen) (hfirst : files.lookup c = some s) :
    (md5hex c, s) ∈ configureManagedObjects md5hex files seen ∧
    ((c, s) ∈ configureManagedObjects md5hex files seen ↔
      c.length ≤ 32) := by
  obtain ⟨h1, h2⟩ := configureManagedObjects_mem md5hex files seen c s
    hnew hfirst
  refine ⟨h1, ⟨?_, h2⟩⟩
  intro hmem
  by_contra hgt
  push_neg at hgt
  exact configureManagedObjects_no_long_literal md5hex hdigest c hgt
    files seen s hmem

/-- Witness for `configureManagedObjects_registration`: the single file
`public` is registered under both its digest and its literal name. -/
theorem configureManagedObjects_registration_witness :
    ("0123456789abcdef0123456789abcdef", 7) ∈
        configureManagedObjects md5hexW [("public", 7)] [] ∧
    (("public", 7) ∈ configureManagedObjects md5hexW [("public", 7)] [] ↔
      "public".length ≤ 32) := by
  exact configureManagedObjects_registration md5hexW (fun _ => rfl)
    [("public", 7)] [] "public" 7 (by simp) (by rfl)

/-- Unfolding of one spec round over a non-empty component list: the
full path first, then the round over the list without its last
component. -/
theorem probeSpecOnce_cons (normPath : String → String) (c : String)
    (rest : List String) :
    probeSpecOnce normPath (c :: rest) =
      pathOf normPath (c :: rest) ::
        probeSpecOnce normPath ((c :: rest).dropLast) := by
  have hdl : (c :: rest).dropLast = (c :: rest).take rest.length := by
    rw [List.dropLast_eq_take]
    simp
  unfold probeSpecOnce
  rw [List.length_cons, List.range_succ_eq_map, List.map_cons, List.map_map]
  congr 1
  · rw [Nat.sub_zero, ← List.length_cons c rest, List.take_length]
  · rw [hdl, List.length_take]
    have hmin : min rest.length (c :: rest).length = rest.length := by
      simp
    rw [hmin]
    apply List.map_congr_left
    intro i hi
    rw [List.mem_range] at hi
    simp only [Function.comp_apply]
    rw [List.take_take]
    have harg : rest.length + 1 - Nat.succ i =
        min (rest.length - i) rest.length := by omega
    rw [harg]

/-- The source's drop-the-last-component loop equals the claim's
enumeration of shrinking prefixes. -/
theorem probeDescend_eq_spec (normPath : String → String) :
    ∀ (n : Nat) (cs : List String), cs.length = n →
      probeDescend normPath cs = probeSpecOnce normPath cs := by
  intro n
  induction n with
  | zero =>
      intro cs hcs
      rw [List.length_eq_zero] at hcs
      subst hcs
      simp [probeDescend, probeSpecOnce]
  | succ n ih =>
      intro cs hcs
      cases cs with
      | nil => simp at hcs
      | cons c rest =>
          rw [probeDescend, probeSpecOnce_cons]
          congr 1
          apply ih
          simp only [List.length_cons] at hcs
          simp only [List.length_dropLast, List.length_cons]
          omega

/-- C9: `probeContext` is a pure function of `(transportDomain,
transportAddress, contextEngineId, contextName)` — identical inputs give
the identical candidate sequence — and that sequence is exactly the
claim's construction: the normalised `/`-joined paths of the non-empty
components, shrinking from the last component until empty, repeated once
more without `contextEngineId` when it was present. -/
theorem probeContext_sequence (normPath : String → String)
    (transportDomain : List Nat) (ta : TransportAddress)
    (contextEngineId contextName : String) :
    probeContext normPath transportDomain ta contextEngineId contextName =
      probeContextSpec normPath transportDomain ta contextEngineId
        contextName := by
  by_cases h : contextEngineId = ""
  · subst h
    rw [probeContext, probeContextSpec]
    rw [dif_pos rfl, if_pos rfl]
    rw [probeDescend_eq_spec normPath _ _ rfl]
  · rw [probeContext, probeContextSpec]
    rw [dif_neg h, if_neg h]
    rw [probeDescend_eq_spec normPath _ _ rfl]
    congr 1
    rw [probeContext, dif_pos rfl]
    rw [probeDescend_eq_spec normPath _ _ rfl]
    simp
